import Mathlib

/-!
Shallow embedding of `crates/volta-core/src/run_package_global/npm.rs`:
the npm invocation classifier (`check_npm_install`), the dispatcher
(`command`), and the execution-context builder (`execution_context`).
External collaborators (the tool-spec parser, the session/platform
resolver, the executor constructors) are not under the sources provided;
they are modelled from the specification and marked as such in their doc
comments.
-/

/-- Modelled from the spec: the error taxonomy of the core.
`BinaryExecError` and `NoPlatform` are the two failure kinds paired with a
search path by `execution_context`; `ConfigReadError` stands for a fatal
configuration-read failure of the platform resolver. -/
inductive ErrorKind where
  | BinaryExecError
  | NoPlatform
  | ConfigReadError
deriving DecidableEq

/-- `Fallible<T>` from the source: a result that is either a value or an
error. -/
abbrev Fallible (α : Type) : Type := Except ErrorKind α

/-- Modelled from the spec: a `Platform` snapshot, `{ node version,
npm version (optional), yarn version (optional) }`. The concrete type is
defined outside the provided sources. -/
structure Platform where
  node : String
  npm : Option String
  yarn : Option String
deriving DecidableEq

/-- Modelled from the spec: `default_platform()` hands the dispatcher a
default-narrowed variant of the stored platform. The spec's `Platform`
carries no provenance data, so the narrowing carries the snapshot over
unchanged. -/
def Platform.as_default (p : Platform) : Platform := p

/-- Modelled from the spec: the checked-out image of a platform, from
which a search path is derived (`image.path()` is fallible). -/
structure Image where
  path : Fallible String

/-- Modelled from the spec: the session boundary consumed by the core.
`default_platform` and `current_platform` are the two resolver queries
(both may fail with a configuration-read error); `checkout` places a
platform's binaries into an image; `system_path` is the system-wide
search path used when no platform is available. -/
structure Session where
  default_platform : Fallible (Option Platform)
  current_platform : Fallible (Option Platform)
  checkout : Platform → Fallible Image
  system_path : Fallible String

/-- `Spec` from `crate::tool`: a parsed tool specification. Modelled from
the spec: a tagged union of the three core tools and third-party
packages, each carrying an optional version request (absent means
unspecified/latest). -/
inductive Spec where
  | Node (version : Option String)
  | Npm (version : Option String)
  | Yarn (version : Option String)
  | Package (name : String) (version : Option String)
deriving DecidableEq

/-- Whether a spec names a Volta-managed core tool (Node, npm, Yarn)
rather than a third-party package. -/
def Spec.is_core_tool : Spec → Bool
  | Spec.Package _ _ => false
  | _ => true

/-- Split a character list at its last `'@'`, returning the parts before
and after it; `none` when no `'@'` occurs. Helper for the tool-spec
parser. -/
def split_at_last_at : List Char → Option (List Char × List Char)
  | [] => none
  | c :: rest =>
    match split_at_last_at rest with
    | some (before, after) => some (c :: before, after)
    | none => if c = '@' then some ([], rest) else none

/-- Modelled from the spec: `Spec::try_from_str`, the tool-spec parser
(defined outside the provided sources). It splits the token on the last
`@` that is not at position 0 (tolerating scoped names that begin with
`@`), normalizes an absent or empty version request to unspecified,
fails only on structurally invalid tokens (empty name), maps the
reserved core-tool names to their variants, and everything else to
`Package`. -/
def Spec.try_from_str (token : String) : Option Spec :=
  match token.toList with
  | [] => none
  | c :: rest =>
    let parts :=
      match split_at_last_at rest with
      | some (before, after) => (c :: before, some after)
      | none => (c :: rest, none)
    let name := String.mk parts.1
    let version :=
      match parts.2 with
      | none => none
      | some [] => none
      | some v => some (String.mk v)
    if name = "node" then some (Spec.Node version)
    else if name = "npm" then some (Spec.Npm version)
    else if name = "yarn" then some (Spec.Yarn version)
    else some (Spec.Package name version)

/-- An `OsString` argument token. `valid s` is a token that decodes as
the text `s`; `invalid lossy` is a token of non-decodable bytes, carrying
the text its lossy conversion produces. Equality of an `invalid` token
with any textual literal is always false (its bytes are not valid text,
so they cannot coincide with a literal's bytes). -/
inductive Arg where
  | valid (s : String)
  | invalid (lossy : String)
deriving DecidableEq

/-- `arg.to_str()`: the decoded text of a token, `none` when the bytes do
not decode. -/
def Arg.to_str : Arg → Option String
  | Arg.valid s => some s
  | Arg.invalid _ => none

/-- `arg.to_string_lossy()`: the decoded text, or the lossy conversion
for non-decodable bytes. -/
def Arg.to_string_lossy : Arg → String
  | Arg.valid s => s
  | Arg.invalid lossy => lossy

/-- `arg == "literal"`: whole-token comparison of an `OsString` against a
textual literal. -/
def Arg.eq_str : Arg → String → Bool
  | Arg.valid s, t => s == t
  | Arg.invalid _, _ => false

/-- `CommandArg` from the dispatch module: the classification result. -/
inductive CommandArg where
  | NotGlobalAdd
  | GlobalAdd (tool : Spec)
deriving DecidableEq

/-- The scan on line 68 of `npm.rs`: whether some argument equals `-g` or
`--global`. -/
def has_global_flag (args : List Arg) : Bool :=
  args.any fun arg => arg.eq_str "-g" || arg.eq_str "--global"

/-- `str::starts_with(c)` for a single-character pattern: whether the
first character of `s` is `c`. -/
def starts_with_char (s : String) (c : Char) : Bool :=
  match s.toList with
  | [] => false
  | d :: _ => d = c

/-- The filter on lines 74-77 of `npm.rs`: drop every token that decodes
as text starting with `-`; non-decodable tokens are conservatively
kept. -/
def filter_flags (args : List Arg) : List Arg :=
  args.filter fun arg =>
    match arg.to_str with
    | some s => !(starts_with_char s '-')
    | none => true

/-- The match guard on line 84 of `npm.rs`: the npm install aliases. -/
def is_install_alias (cmd : Arg) : Bool :=
  cmd.eq_str "install" || cmd.eq_str "i" || cmd.eq_str "add" || cmd.eq_str "isntall"

/-- The match on lines 82-92 of `npm.rs`: the first two entries of the
flag-filtered argument list are the npm command and the package to
install; the command must be an install alias and the package token must
parse as a tool spec. -/
def select_install (filtered : List Arg) : CommandArg :=
  match filtered with
  | cmd :: package :: _ =>
    if is_install_alias cmd then
      match Spec.try_from_str package.to_string_lossy with
      | some tool => CommandArg.GlobalAdd tool
      | none => CommandArg.NotGlobalAdd
    else CommandArg.NotGlobalAdd
  | _ => CommandArg.NotGlobalAdd

/-- `check_npm_install` from `npm.rs` lines 66-93: global installs have
`-g` or `--global` somewhere in the argument list; the first two
non-flag tokens must be an install alias and a package token that parses
as a tool spec. -/
def check_npm_install (args : List Arg) : CommandArg :=
  if !has_global_flag args then CommandArg.NotGlobalAdd
  else select_install (filter_flags args)

/-- `ToolKind` of the executor module (only the npm member is exercised
here). -/
inductive ToolKind where
  | Node
  | Npm
  | Yarn
deriving DecidableEq

/-- `PackageManager` from `crate::tool::package`. -/
inductive PackageManager where
  | Npm
  | Yarn
deriving DecidableEq

/-- Modelled from the spec: the `Executor` union produced by dispatch,
each variant carrying exactly the data handed to the launch collaborator.
The source builds these through per-variant constructors
(`ToolCommand::new`, `PackageInstallCommand::new`,
`InternalInstallCommand::new`) defined outside the provided sources;
per the spec they bundle their arguments unchanged. -/
inductive Executor where
  | ToolCommand (exe : String) (args : List Arg) (platform : Option Platform) (kind : ToolKind)
  | PackageInstallCommand (package : String) (args : List Arg) (platform : Platform)
      (manager : PackageManager)
  | InternalInstallCommand (tool : Spec)
deriving DecidableEq

/-- The pass-through tail of `command` (`npm.rs` lines 36-38): resolve the
current platform and build a `ToolCommand` for npm carrying the original
arguments. -/
def pass_through (args : List Arg) (session : Session) : Fallible Executor :=
  match session.current_platform with
  | Except.error e => Except.error e
  | Except.ok platform => Except.ok (Executor.ToolCommand "npm" args platform ToolKind.Npm)

/-- `command` from `npm.rs` lines 20-39: dispatch on the classification.
A global package install with a default platform available becomes a
`PackageInstallCommand`; a global install of a core tool becomes an
`InternalInstallCommand`; everything else (including a global package
install with no default platform) falls through to the pass-through
path. -/
def command (args : List Arg) (session : Session) : Fallible Executor :=
  match check_npm_install args with
  | CommandArg.GlobalAdd (Spec.Package name _) =>
    match session.default_platform with
    | Except.error e => Except.error e
    | Except.ok (some default_platform) =>
      Except.ok (Executor.PackageInstallCommand name args default_platform.as_default
        PackageManager.Npm)
    | Except.ok none => pass_through args session
  | CommandArg.GlobalAdd tool =>
    Except.ok (Executor.InternalInstallCommand tool)
  | CommandArg.NotGlobalAdd => pass_through args session

/-- `execution_context` from `npm.rs` lines 42-60: with a platform,
check out its image and pair the image path with `BinaryExecError`;
without one, pair the system path with `NoPlatform`. -/
def execution_context (platform : Option Platform) (session : Session) :
    Fallible (String × ErrorKind) :=
  match platform with
  | some plat =>
    match session.checkout plat with
    | Except.error e => Except.error e
    | Except.ok image =>
      match image.path with
      | Except.error e => Except.error e
      | Except.ok path => Except.ok (path, ErrorKind.BinaryExecError)
  | none =>
    match session.system_path with
    | Except.error e => Except.error e
    | Except.ok path => Except.ok (path, ErrorKind.NoPlatform)

/-- A sample platform snapshot used by concrete witnesses. -/
def sample_platform : Platform :=
  { node := "18.12.0", npm := some "9.1.0", yarn := none }

/-- A session whose resolver reads succeed and whose default platform is
configured. -/
def session_with_default : Session :=
  { default_platform := Except.ok (some sample_platform)
  , current_platform := Except.ok (some sample_platform)
  , checkout := fun _ => Except.ok { path := Except.ok "/volta/image/bin" }
  , system_path := Except.ok "/usr/bin" }

/-- A session whose resolver reads succeed but where no platform is
configured at all. -/
def session_no_default : Session :=
  { default_platform := Except.ok none
  , current_platform := Except.ok none
  , checkout := fun _ => Except.ok { path := Except.ok "/volta/image/bin" }
  , system_path := Except.ok "/usr/bin" }

/-- A session in which every resolver read fails with a
configuration-read error. -/
def session_failing_reads : Session :=
  { default_platform := Except.error ErrorKind.ConfigReadError
  , current_platform := Except.error ErrorKind.ConfigReadError
  , checkout := fun _ => Except.error ErrorKind.ConfigReadError
  , system_path := Except.error ErrorKind.ConfigReadError }

/-- C1: for every argument list classified as a global add of a package,
if the session's default platform resolves to `some`, `command` returns a
`PackageInstallCommand` carrying that (default-narrowed) platform, the
original arguments and the npm manager kind; if it resolves to `none`,
`command` falls through and returns the pass-through `ToolCommand`,
fabricating no error of its own. -/
theorem npm_command_global_package_dispatch (args : List Arg) (session : Session)
    (name : String) (version : Option String)
    (h : check_npm_install args = CommandArg.GlobalAdd (Spec.Package name version)) :
    (∀ p, session.default_platform = Except.ok (some p) →
      command args session =
        Except.ok (Executor.PackageInstallCommand name args p.as_default PackageManager.Npm)) ∧
    (session.default_platform = Except.ok none →
      ∀ plat, session.current_platform = Except.ok plat →
        command args session = Except.ok (Executor.ToolCommand "npm" args plat ToolKind.Npm)) := by
  constructor
  · intro p hp
    simp [command, h, hp]
  · intro hnone plat hplat
    simp [command, h, hnone, pass_through, hplat]

/-- Witness for C1 at `npm install -g lodash`, once with a configured
default platform and once without one. -/
theorem npm_command_global_package_dispatch_witness :
    command [Arg.valid "install", Arg.valid "-g", Arg.valid "lodash"] session_with_default =
      Except.ok (Executor.PackageInstallCommand "lodash"
        [Arg.valid "install", Arg.valid "-g", Arg.valid "lodash"]
        sample_platform.as_default PackageManager.Npm) ∧
    command [Arg.valid "install", Arg.valid "-g", Arg.valid "lodash"] session_no_default =
      Except.ok (Executor.ToolCommand "npm"
        [Arg.valid "install", Arg.valid "-g", Arg.valid "lodash"] none ToolKind.Npm) :=
  ⟨(npm_command_global_package_dispatch
      [Arg.valid "install", Arg.valid "-g", Arg.valid "lodash"] session_with_default
      "lodash" none (by decide)).1 sample_platform rfl,
   (npm_command_global_package_dispatch
      [Arg.valid "install", Arg.valid "-g", Arg.valid "lodash"] session_no_default
      "lodash" none (by decide)).2 rfl none rfl⟩

/-- C2: for every argument list containing a `-g`/`--global` token whose
first non-flag token is an install alias and whose second non-flag token
parses as a tool spec, classification returns `GlobalAdd` with exactly
the parsed spec. -/
theorem check_npm_install_global_add (args : List Arg) (cmd pkg : Arg) (rest : List Arg)
    (tool : Spec)
    (hg : has_global_flag args = true)
    (hf : filter_flags args = cmd :: pkg :: rest)
    (hcmd : is_install_alias cmd = true)
    (hp : Spec.try_from_str pkg.to_string_lossy = some tool) :
    check_npm_install args = CommandArg.GlobalAdd tool := by
  simp [check_npm_install, select_install, hg, hf, hcmd, hp]

/-- Witness for C2 at `npm i -g npm@9`, whose core-tool token yields the
`Npm` variant with version request `9`. -/
theorem check_npm_install_global_add_witness :
    check_npm_install [Arg.valid "i", Arg.valid "-g", Arg.valid "npm@9"] =
      CommandArg.GlobalAdd (Spec.Npm (some "9")) :=
  check_npm_install_global_add [Arg.valid "i", Arg.valid "-g", Arg.valid "npm@9"]
    (Arg.valid "i") (Arg.valid "npm@9") [] (Spec.Npm (some "9"))
    (by decide) (by decide) (by decide) (by decide)

/-- C3: for every argument list with no token equal to `-g` or
`--global`, classification returns `NotGlobalAdd` regardless of any
other tokens present. -/
theorem check_npm_install_without_global_flag (args : List Arg)
    (h : has_global_flag args = false) :
    check_npm_install args = CommandArg.NotGlobalAdd := by
  simp [check_npm_install, h]

/-- Witness for C3 at `npm run build`. -/
theorem check_npm_install_without_global_flag_witness :
    check_npm_install [Arg.valid "run", Arg.valid "build"] = CommandArg.NotGlobalAdd :=
  check_npm_install_without_global_flag [Arg.valid "run", Arg.valid "build"] (by decide)

/-- C4: whenever classification yields a global add of a core tool
(Node, npm or Yarn), `command` returns `InternalInstallCommand` with that
spec for every session whatsoever — no platform is consulted or
required. -/
theorem npm_command_core_tool_internal_install (args : List Arg) (session : Session)
    (tool : Spec)
    (h : check_npm_install args = CommandArg.GlobalAdd tool)
    (hcore : tool.is_core_tool = true) :
    command args session = Except.ok (Executor.InternalInstallCommand tool) := by
  cases tool with
  | Package name version => simp [Spec.is_core_tool] at hcore
  | Node version => simp [command, h]
  | Npm version => simp [command, h]
  | Yarn version => simp [command, h]

/-- Witness for C4 at `npm i -g npm@9` against a session whose every
resolver read fails: the internal install is still produced. -/
theorem npm_command_core_tool_internal_install_witness :
    command [Arg.valid "i", Arg.valid "-g", Arg.valid "npm@9"] session_failing_reads =
      Except.ok (Executor.InternalInstallCommand (Spec.Npm (some "9"))) :=
  npm_command_core_tool_internal_install [Arg.valid "i", Arg.valid "-g", Arg.valid "npm@9"]
    session_failing_reads (Spec.Npm (some "9")) (by decide) (by decide)

/-- C5: a global flag plus an install alias whose package token fails to
parse yields `NotGlobalAdd`; the parse failure is recovered locally and
classification itself never fails. -/
theorem check_npm_install_parse_failure_recovered (args : List Arg) (cmd pkg : Arg)
    (rest : List Arg)
    (hg : has_global_flag args = true)
    (hf : filter_flags args = cmd :: pkg :: rest)
    (hcmd : is_install_alias cmd = true)
    (hp : Spec.try_from_str pkg.to_string_lossy = none) :
    check_npm_install args = CommandArg.NotGlobalAdd := by
  simp [check_npm_install, select_install, hg, hf, hcmd, hp]

/-- Witness for C5 at `npm install -g ""` (empty package name, a
structurally invalid token). -/
theorem check_npm_install_parse_failure_recovered_witness :
    check_npm_install [Arg.valid "install", Arg.valid "-g", Arg.valid ""] =
      CommandArg.NotGlobalAdd :=
  check_npm_install_parse_failure_recovered
    [Arg.valid "install", Arg.valid "-g", Arg.valid ""]
    (Arg.valid "install") (Arg.valid "") []
    (by decide) (by decide) (by decide) (by decide)

/-- C6: whenever `execution_context` succeeds, the absent-platform case
pairs the system-wide search path with the `NoPlatform` error kind, and
the present-platform case pairs the checked-out image's path with the
`BinaryExecError` error kind. -/
theorem npm_execution_context_error_kinds (session : Session) (plat : Platform) :
    (∀ path ek, execution_context none session = Except.ok (path, ek) →
      session.system_path = Except.ok path ∧ ek = ErrorKind.NoPlatform) ∧
    (∀ path ek, execution_context (some plat) session = Except.ok (path, ek) →
      (∃ image, session.checkout plat = Except.ok image ∧ image.path = Except.ok path) ∧
      ek = ErrorKind.BinaryExecError) := by
  constructor
  · intro path ek h
    simp only [execution_context] at h
    split at h
    · exact Except.noConfusion h
    · rename_i p hs
      simp only [Except.ok.injEq, Prod.mk.injEq] at h
      rw [h.1] at hs
      exact ⟨hs, h.2.symm⟩
  · intro path ek h
    simp only [execution_context] at h
    split at h
    · exact Except.noConfusion h
    · rename_i image hc
      split at h
      · exact Except.noConfusion h
      · rename_i p hip
        simp only [Except.ok.injEq, Prod.mk.injEq] at h
        rw [h.1] at hip
        exact ⟨⟨image, hc, hip⟩, h.2.symm⟩

/-- Witness for C6 against a concrete session, at both the absent- and
present-platform cases. -/
theorem npm_execution_context_error_kinds_witness :
    (session_with_default.system_path = Except.ok "/usr/bin" ∧
      ErrorKind.NoPlatform = ErrorKind.NoPlatform) ∧
    ((∃ image, session_with_default.checkout sample_platform = Except.ok image ∧
        image.path = Except.ok "/volta/image/bin") ∧
      ErrorKind.BinaryExecError = ErrorKind.BinaryExecError) :=
  ⟨(npm_execution_context_error_kinds session_with_default sample_platform).1
      "/usr/bin" ErrorKind.NoPlatform rfl,
   (npm_execution_context_error_kinds session_with_default sample_platform).2
      "/volta/image/bin" ErrorKind.BinaryExecError rfl⟩

/-- C8: every pass-through outcome of `command` that yields a
`ToolCommand` carries the original argument list unchanged — no token
added, removed, reordered or mutated. -/
theorem npm_tool_command_preserves_args (args : List Arg) (session : Session)
    (exe : String) (out_args : List Arg) (platform : Option Platform) (kind : ToolKind)
    (h : command args session = Except.ok (Executor.ToolCommand exe out_args platform kind)) :
    out_args = args := by
  unfold command at h
  cases hc : check_npm_install args with
  | NotGlobalAdd =>
    rw [hc] at h
    unfold pass_through at h
    cases hcp : session.current_platform with
    | error e => rw [hcp] at h; exact Except.noConfusion h
    | ok plat =>
      rw [hcp] at h
      simp only [Except.ok.injEq, Executor.ToolCommand.injEq] at h
      exact h.2.1.symm
  | GlobalAdd tool =>
    rw [hc] at h
    cases tool with
    | Package name version =>
      cases hd : session.default_platform with
      | error e => rw [hd] at h; exact Except.noConfusion h
      | ok od =>
        cases od with
        | some p => rw [hd] at h; simp at h
        | none =>
          rw [hd] at h
          unfold pass_through at h
          cases hcp : session.current_platform with
          | error e => rw [hcp] at h; exact Except.noConfusion h
          | ok plat =>
            rw [hcp] at h
            simp only [Except.ok.injEq, Executor.ToolCommand.injEq] at h
            exact h.2.1.symm
    | Node version => simp at h
    | Npm version => simp at h
    | Yarn version => simp at h

/-- Witness for C8 at `npm run build` with no configured platform. -/
theorem npm_tool_command_preserves_args_witness :
    [Arg.valid "run", Arg.valid "build"] = [Arg.valid "run", Arg.valid "build"] :=
  npm_tool_command_preserves_args [Arg.valid "run", Arg.valid "build"] session_no_default
    "npm" [Arg.valid "run", Arg.valid "build"] none ToolKind.Npm rfl

/-- C9: classification is a deterministic pure function of the argument
list: two runs on equal inputs yield identical results. -/
theorem check_npm_install_deterministic (args1 args2 : List Arg) (h : args1 = args2) :
    check_npm_install args1 = check_npm_install args2 := by
  rw [h]

/-- Witness for C9 at `npm install -g lodash`. -/
theorem check_npm_install_deterministic_witness :
    check_npm_install [Arg.valid "install", Arg.valid "-g", Arg.valid "lodash"] =
      check_npm_install [Arg.valid "install", Arg.valid "-g", Arg.valid "lodash"] :=
  check_npm_install_deterministic
    [Arg.valid "install", Arg.valid "-g", Arg.valid "lodash"]
    [Arg.valid "install", Arg.valid "-g", Arg.valid "lodash"] rfl

/-- Helper: the classification of the flag-filtered list only looks at
its first two entries. -/
theorem take_two_select (xs ys : List Arg) (h : xs.take 2 = ys.take 2) :
    select_install xs = select_install ys := by
  cases xs with
  | nil =>
    cases ys with
    | nil => rfl
    | cons b ys =>
      have h' : ([] : List Arg) = b :: ys.take 1 := h
      exact List.noConfusion h'
  | cons a xs =>
    cases ys with
    | nil =>
      have h' : a :: xs.take 1 = ([] : List Arg) := h
      exact List.noConfusion h'
    | cons b ys =>
      have h' : a :: xs.take 1 = b :: ys.take 1 := h
      injection h' with h1 h2
      cases xs with
      | nil =>
        cases ys with
        | nil => rw [h1]
        | cons d ws =>
          have h2' : ([] : List Arg) = d :: ws.take 0 := h2
          exact List.noConfusion h2'
      | cons c zs =>
        cases ys with
        | nil =>
          have h2' : c :: zs.take 0 = ([] : List Arg) := h2
          exact List.noConfusion h2'
        | cons d ws =>
          have h2' : c :: zs.take 0 = d :: ws.take 0 := h2
          injection h2' with h3 _
          rw [h1, h3]
          simp [select_install]

/-- C7: classification depends only on the presence of a `-g`/`--global`
token and on the first two non-flag tokens; and a global flag with fewer
than two non-flag tokens (no install subcommand or no package token)
yields `NotGlobalAdd`. -/
theorem check_npm_install_first_two_tokens :
    (∀ args1 args2 : List Arg,
      has_global_flag args1 = has_global_flag args2 →
      (filter_flags args1).take 2 = (filter_flags args2).take 2 →
      check_npm_install args1 = check_npm_install args2) ∧
    (∀ args : List Arg,
      has_global_flag args = true →
      (filter_flags args).length ≤ 1 →
      check_npm_install args = CommandArg.NotGlobalAdd) := by
  constructor
  · intro args1 args2 hg hf
    unfold check_npm_install
    rw [hg]
    cases hgb : has_global_flag args2 with
    | false => rfl
    | true => exact take_two_select _ _ hf
  · intro args hg hlen
    unfold check_npm_install
    rw [hg]
    show select_install (filter_flags args) = CommandArg.NotGlobalAdd
    cases hf : filter_flags args with
    | nil => rfl
    | cons a xs =>
      cases xs with
      | nil => rfl
      | cons b ys =>
        rw [hf] at hlen
        simp at hlen

/-- Witness for C7: extra flags, a repeated install alias and trailing
arguments do not change the classification, and `npm ls -g` is not a
global add. -/
theorem check_npm_install_first_two_tokens_witness :
    check_npm_install
        [Arg.valid "install", Arg.valid "-g", Arg.valid "lodash", Arg.valid "extra"] =
      check_npm_install
        [Arg.valid "--global", Arg.valid "install", Arg.valid "--save-dev",
          Arg.valid "lodash", Arg.valid "more", Arg.valid "install"] ∧
    check_npm_install [Arg.valid "ls", Arg.valid "-g"] = CommandArg.NotGlobalAdd :=
  ⟨check_npm_install_first_two_tokens.1
      [Arg.valid "install", Arg.valid "-g", Arg.valid "lodash", Arg.valid "extra"]
      [Arg.valid "--global", Arg.valid "install", Arg.valid "--save-dev",
        Arg.valid "lodash", Arg.valid "more", Arg.valid "install"]
      (by decide) (by decide),
   check_npm_install_first_two_tokens.2 [Arg.valid "ls", Arg.valid "-g"]
      (by decide) (by decide)⟩

/-- C10: the global trigger matches by whole-token equality only — the
scan fires exactly when some token equals `-g` or `--global` as a whole
(so `--global-style`, `-gf`, `--no-global` never fire it) — and the
trigger tokens themselves, starting with `-`, are dropped by the flag
filter, so neither can ever be the install-subcommand or
package-identifier candidate. -/
theorem npm_global_flag_whole_token (args : List Arg) :
    (has_global_flag args = true ↔
      Arg.valid "-g" ∈ args ∨ Arg.valid "--global" ∈ args) ∧
    ((filter_flags args).all fun arg => !(arg.eq_str "-g" || arg.eq_str "--global")) = true := by
  constructor
  · simp only [has_global_flag, List.any_eq_true]
    constructor
    · rintro ⟨a, ha, hpa⟩
      cases a with
      | valid s =>
        simp only [Arg.eq_str, Bool.or_eq_true, beq_iff_eq] at hpa
        cases hpa with
        | inl hs => exact Or.inl (hs ▸ ha)
        | inr hs => exact Or.inr (hs ▸ ha)
      | invalid l => simp [Arg.eq_str] at hpa
    · rintro (h | h)
      · exact ⟨Arg.valid "-g", h, by simp [Arg.eq_str]⟩
      · exact ⟨Arg.valid "--global", h, by simp [Arg.eq_str]⟩
  · rw [List.all_eq_true]
    intro a ha
    have hmem := List.mem_filter.mp ha
    cases a with
    | valid s =>
      have hpred := hmem.2
      simp only [Arg.to_str] at hpred
      simp only [Arg.eq_str, Bool.not_eq_true', Bool.or_eq_false_iff, beq_eq_false_iff_ne, ne_eq]
      constructor
      · intro hs
        rw [hs] at hpred
        exact absurd hpred (by decide)
      · intro hs
        rw [hs] at hpred
        exact absurd hpred (by decide)
    | invalid l => simp [Arg.eq_str]

/-- Witness for C10 at an argument list whose tokens merely contain or
extend the trigger flags. -/
theorem npm_global_flag_whole_token_witness :
    (has_global_flag
        [Arg.valid "--global-style", Arg.valid "-gf", Arg.valid "--no-global"] = true ↔
      Arg.valid "-g" ∈
        [Arg.valid "--global-style", Arg.valid "-gf", Arg.valid "--no-global"] ∨
      Arg.valid "--global" ∈
        [Arg.valid "--global-style", Arg.valid "-gf", Arg.valid "--no-global"]) ∧
    ((filter_flags [Arg.valid "--global-style", Arg.valid "-gf", Arg.valid "--no-global"]).all
        fun arg => !(arg.eq_str "-g" || arg.eq_str "--global")) = true :=
  npm_global_flag_whole_token
    [Arg.valid "--global-style", Arg.valid "-gf", Arg.valid "--no-global"]
